import Mathlib

set_option maxHeartbeats 1000000

/- Shallow embedding of the mini-rag RAG pipeline:
   NLPController (indexing, retrieval, answer generation) and the
   ProcessController chunking step.  External collaborator clients
   (embedding provider, vector store, generation backend, template
   provider) are modelled as abstract function records, and every
   controller method additionally returns the trace of collaborator
   calls it issues, in order. -/

/-- Embedding mode passed to the embedding client
    (stores.llm.LLMEnums.DocumentTypeEnum). -/
inductive DocumentType where
  | document
  | query
deriving DecidableEq, Repr

/-- models.db_schemes.Project restricted to the field the controller
    reads (project_id). -/
structure Project where
  project_id : String
deriving DecidableEq

/-- models.db_schemes.DataChunk restricted to the fields the controller
    reads; metadata is an opaque type parameter since the code never
    inspects it. -/
structure DataChunk (μ : Type) where
  chunk_text : String
  chunk_metadata : μ
  chunk_order : Nat
deriving DecidableEq

/-- models.db_schemes.RetrievedDocument: chunk text plus a relevance
    score; the score type is opaque since the controller never inspects
    it. -/
structure RetrievedDocument (σ : Type) where
  text : String
  score : σ
deriving DecidableEq

/-- A chat message as produced by generation_client.construct_prompt. -/
structure ChatMessage where
  prompt : String
  role : String
deriving DecidableEq

/-- The substitution variables passed to template_parser.get in
    NLPController: none, {doc_num, chunk_text}, or {query}. -/
inductive TemplateVars where
  | noVars
  | docVars (doc_num : Nat) (chunk_text : String)
  | queryVars (query : String)
deriving DecidableEq

/-- One collaborator call, as issued by the controller.  α is the
    embedding-vector element type, μ the chunk metadata type. -/
inductive Event (α μ : Type) where
  | embed_text (text : String) (document_type : DocumentType)
  | create_collection (collection_name : String) (embedding_size : Nat) (do_reset : Bool)
  | insert_many (collection_name : String) (texts : List String) (metadata : List μ)
      (vectors : List (Option (List α))) (record_ids : List Int)
  | search_by_vector (collection_name : String) (vector : List α) (limit : Nat)
  | delete_collection (collection_name : String)
  | template_get (group : String) (key : String) (vars : TemplateVars)
  | construct_prompt (prompt : String) (role : String)
  | generate_text (prompt : String) (chat_history : List ChatMessage)
deriving DecidableEq

/-- The collaborator clients handed to NLPController, as pure functions.
    Modelled from the spec: the vector db client, embedding client,
    generation client and template parser live outside src (stores/),
    so their behaviour is abstract; an embedding call may return an
    empty or absent vector, a similarity search may return an absent or
    empty result list. -/
structure Clients (α μ σ : Type) where
  embed_text : String → DocumentType → Option (List α)
  embedding_size : Nat
  search_by_vector : String → List α → Nat → Option (List (RetrievedDocument σ))
  template_get : String → String → TemplateVars → String
  construct_prompt : String → String → ChatMessage
  system_enum : String
  generate_text : String → List ChatMessage → Option String

namespace NLPController

variable {α μ σ : Type}

/-- NLPController.create_collection_name: the f-string
    collection_{project_id} followed by .strip(). -/
def create_collection_name (project_id : String) : String :=
  ("collection_" ++ project_id).trim

/-- NLPController.index_into_vector_db: embed every chunk text in
    document mode, create the collection (resetting it when do_reset),
    insert all records, and return True.  The second component is the
    trace of collaborator calls in program order. -/
def index_into_vector_db (C : Clients α μ σ) (project : Project)
    (chunks : List (DataChunk μ)) (chunks_ids : List Int)
    (do_reset : Bool := false) :
    Bool × List (Event α μ) :=
  let collection_name := create_collection_name project.project_id
  let texts := chunks.map (fun c => c.chunk_text)
  let metadata := chunks.map (fun c => c.chunk_metadata)
  let vectors := texts.map (fun text => C.embed_text text DocumentType.document)
  (true,
    (texts.map (fun text => Event.embed_text text DocumentType.document)) ++
      [Event.create_collection collection_name C.embedding_size do_reset,
       Event.insert_many collection_name texts metadata vectors chunks_ids])

/-- NLPController.search_vector_db_collection: embed the query in query
    mode; a falsy (absent or empty) vector returns False before any
    search; a falsy search result returns False; otherwise the result
    list is returned.  Python False is modelled as none. -/
def search_vector_db_collection (C : Clients α μ σ) (project : Project)
    (text : String) (limit : Nat := 10) :
    Option (List (RetrievedDocument σ)) × List (Event α μ) :=
  let collection_name := create_collection_name project.project_id
  let vector := C.embed_text text DocumentType.query
  let tr := [Event.embed_text text DocumentType.query]
  match vector with
  | none => (none, tr)
  | some v =>
    if v.length = 0 then
      (none, tr)
    else
      let results := C.search_by_vector collection_name v limit
      let tr2 := tr ++ [Event.search_by_vector collection_name v limit]
      match results with
      | none => (none, tr2)
      | some rs => if rs.length = 0 then (none, tr2) else (some rs, tr2)

/-- NLPController.answer_rag_question: retrieve, early-exit with the
    all-None triple when retrieval is falsy or empty, otherwise resolve
    the system, document and footer template fragments, build the chat
    history and full prompt, and call the generation backend. -/
def answer_rag_question (C : Clients α μ σ) (project : Project)
    (query : String) (limit : Nat := 10) :
    (Option String × Option String × Option (List ChatMessage)) × List (Event α μ) :=
  let sr := search_vector_db_collection C project query limit
  match sr.1 with
  | none => ((none, none, none), sr.2)
  | some retrieved_documents =>
    if retrieved_documents.length = 0 then ((none, none, none), sr.2)
    else
      let system_prompt := C.template_get "rag" "system_prompt" TemplateVars.noVars
      let documents_prompts := String.intercalate "\n"
        (retrieved_documents.enum.map (fun p =>
          C.template_get "rag" "document_prompt" (TemplateVars.docVars (p.1 + 1) p.2.text)))
      let footer_prompt := C.template_get "rag" "footer_prompt" (TemplateVars.queryVars query)
      let chat_history := [C.construct_prompt system_prompt C.system_enum]
      let full_prompt := String.intercalate "\n\n" [documents_prompts, footer_prompt]
      let answer := C.generate_text full_prompt chat_history
      ((answer, some full_prompt, some chat_history),
        sr.2 ++
          [Event.template_get "rag" "system_prompt" TemplateVars.noVars] ++
          (retrieved_documents.enum.map (fun p =>
            Event.template_get "rag" "document_prompt" (TemplateVars.docVars (p.1 + 1) p.2.text))) ++
          [Event.template_get "rag" "footer_prompt" (TemplateVars.queryVars query),
           Event.construct_prompt system_prompt C.system_enum,
           Event.generate_text full_prompt chat_history])

end NLPController

/-- True exactly on insert_many events (vector store writes). -/
def Event.isInsert {α μ : Type} : Event α μ → Bool
  | .insert_many _ _ _ _ _ => true
  | _ => false

/-- True exactly on template_get events (template parser calls). -/
def Event.isTemplateGet {α μ : Type} : Event α μ → Bool
  | .template_get _ _ _ => true
  | _ => false

/-- True exactly on generation-backend calls (construct_prompt or
    generate_text). -/
def Event.isGenerationCall {α μ : Type} : Event α μ → Bool
  | .construct_prompt _ _ => true
  | .generate_text _ _ => true
  | _ => false

/-- True exactly on search_by_vector events (similarity searches). -/
def Event.isSearchCall {α μ : Type} : Event α μ → Bool
  | .search_by_vector _ _ _ => true
  | _ => false

/-- True when the trace contains a vector store write. -/
def writeIssued {α μ : Type} (tr : List (Event α μ)) : Bool :=
  tr.any Event.isInsert

namespace VectorStore

variable {α μ : Type}

/-- One stored vector record: text, metadata and the vector value the
    controller supplied. -/
structure VRecord (α μ : Type) where
  text : String
  metadata : μ
  vector : Option (List α)

/-- A collection maps record ids to records. -/
def VCollection (α μ : Type) : Type := Int → Option (VRecord α μ)

/-- The vector store state maps collection names to collections. -/
def VStore (α μ : Type) : Type := String → Option (VCollection α μ)

/-- The collection with no records. -/
def emptyColl : VCollection α μ := fun _ => none

/-- Replace one collection slot of the store. -/
def setColl (S : VStore α μ) (name : String) (c : Option (VCollection α μ)) :
    VStore α μ :=
  fun k => if k = name then c else S k

/-- Upsert one keyed record into a collection. -/
def upsertOne (coll : VCollection α μ) (row : Int × VRecord α μ) :
    VCollection α μ :=
  fun k => if k = row.1 then some row.2 else coll k

/-- Upsert a list of keyed records, left to right (later rows win). -/
def upsertRows (coll : VCollection α μ) (rows : List (Int × VRecord α μ)) :
    VCollection α μ :=
  rows.foldl upsertOne coll

/-- Pair up the parallel texts/metadata/vectors/ids lists of an
    insert_many call into keyed records, stopping at the shortest
    list. -/
def mkRows : List String → List μ → List (Option (List α)) → List Int →
    List (Int × VRecord α μ)
  | t :: ts, m :: ms, v :: vs, i :: is => (i, ⟨t, m, v⟩) :: mkRows ts ms vs is
  | _, _, _, _ => []

/-- Modelled from the spec: the vector store collaborator (stores/ is
    not in src).  create_collection wipes and recreates on do_reset and
    otherwise creates only if absent; insert_many performs an
    idempotent upsert keyed by record ids; delete_collection removes
    the collection; every other call leaves the store unchanged. -/
def applyEvent (S : VStore α μ) : Event α μ → VStore α μ
  | .create_collection name _ do_reset =>
    if do_reset then setColl S name (some emptyColl)
    else match S name with
      | some _ => S
      | none => setColl S name (some emptyColl)
  | .insert_many name texts metadata vectors ids =>
    (match S name with
      | none => S
      | some coll => setColl S name (some (upsertRows coll (mkRows texts metadata vectors ids))))
  | .delete_collection name => setColl S name none
  | _ => S

/-- Run a trace of collaborator calls against a store state. -/
def applyTrace (S : VStore α μ) (tr : List (Event α μ)) : VStore α μ :=
  tr.foldl applyEvent S

end VectorStore

namespace ProcessController

variable {μ : Type}

/-- A loaded document as handed to process_file_content: text plus
    opaque metadata.  Text is modelled as its character list. -/
structure Document (μ : Type) where
  page_content : List Char
  metadata : μ
deriving DecidableEq

/-- Modelled from the spec: the recursive character text splitter used
    by process_file_content is an external library dependency (not in
    src).  Per the spec (4.1), it produces an ordered sequence of
    chunks each at most chunk_size characters long, with consecutive
    chunks sharing exactly overlap_size characters; an empty document
    yields no chunk.  Degenerate parameters (overlap_size at or above
    chunk_size) yield the whole text as one chunk. -/
def splitText (chunk_size overlap_size : Nat) (cs : List Char) :
    List (List Char) :=
  if cs.length = 0 then []
  else if cs.length ≤ chunk_size ∨ chunk_size ≤ overlap_size then [cs]
  else cs.take chunk_size ::
    splitText chunk_size overlap_size (cs.drop (chunk_size - overlap_size))
termination_by cs.length
decreasing_by
  simp only [List.length_drop]
  omega

/-- Concatenate a chunk list dropping the leading overlap of every
    chunk after the first (the reconstruction operation the spec
    states). -/
def joinWithoutOverlap (overlap_size : Nat) : List (List Char) → List Char
  | [] => []
  | c :: rest => c ++ (rest.map (List.drop overlap_size)).flatten

/-- Modelled from the spec: the splitter entry point that turns each
    source text into chunk documents, each output chunk retaining the
    metadata of its source document unmodified. -/
def create_documents (chunk_size overlap_size : Nat)
    (texts : List (List Char)) (metadatas : List μ) : List (Document μ) :=
  (texts.zip metadatas).flatMap (fun p =>
    (splitText chunk_size overlap_size p.1).map (fun c => ⟨c, p.2⟩))

/-- ProcessController.process_file_content: collect the texts and
    metadata of the loaded documents and split them into overlapping
    chunk documents. -/
def process_file_content (file_content : List (Document μ)) (file_id : String)
    (chunk_size : Nat := 100) (overlap_size : Nat := 20) :
    List (Document μ) :=
  let file_content_texts := file_content.map (fun rec => rec.page_content)
  let file_content_metadata := file_content.map (fun rec => rec.metadata)
  create_documents chunk_size overlap_size file_content_texts file_content_metadata

end ProcessController

section Helpers

variable {α μ σ : Type}

open NLPController

/-- The document-prompt fragments, one per retrieved document, numbered
    1-based in retrieval order (spec wording for the PromptAssembler). -/
def documentFragments (tg : String → String → TemplateVars → String)
    (docs : List (RetrievedDocument σ)) : List String :=
  docs.enum.map (fun p => tg "rag" "document_prompt" (TemplateVars.docVars (p.1 + 1) p.2.text))

/-- The footer fragment carrying the literal query text. -/
def footerFragment (tg : String → String → TemplateVars → String)
    (query : String) : String :=
  tg "rag" "footer_prompt" (TemplateVars.queryVars query)

/-- The full prompt as the claim words it: every document fragment
    followed by the single footer fragment, all joined into one block
    separated by blank lines. -/
def assembledPromptClaim (tg : String → String → TemplateVars → String)
    (docs : List (RetrievedDocument σ)) (query : String) : String :=
  String.intercalate "\n\n" (documentFragments tg docs ++ [footerFragment tg query])

/-- The full prompt as amended: consecutive document fragments joined
    by single newlines into one documents block, and the footer
    fragment separated from that block by one blank line. -/
def assembledPromptAmended (tg : String → String → TemplateVars → String)
    (docs : List (RetrievedDocument σ)) (query : String) : String :=
  String.intercalate "\n\n"
    [String.intercalate "\n" (documentFragments tg docs), footerFragment tg query]

/-- The chat history the controller builds: exactly one system-role
    message made from the system_prompt fragment. -/
def chatHistoryOf (C : Clients α μ σ) : List ChatMessage :=
  [C.construct_prompt (C.template_get "rag" "system_prompt" TemplateVars.noVars) C.system_enum]

/-- search_vector_db_collection either signals no result (none, the
    embedding of Python False) or returns a non-empty list. -/
lemma search_result_shape (C : Clients α μ σ) (project : Project)
    (text : String) (limit : Nat) :
    (search_vector_db_collection C project text limit).1 = none ∨
      ∃ rs, (search_vector_db_collection C project text limit).1 = some rs ∧ rs ≠ [] := by
  unfold search_vector_db_collection
  cases hv : C.embed_text text DocumentType.query with
  | none => exact Or.inl rfl
  | some v =>
    by_cases hl : v.length = 0
    · simp [hl]
    · simp only [hl, if_false]
      cases hr : C.search_by_vector (create_collection_name project.project_id) v limit with
      | none => simp
      | some rs =>
        by_cases hrs : rs.length = 0
        · simp [hrs]
        · refine Or.inr ⟨rs, by simp [hrs], fun h => ?_⟩
          subst h
          simp at hrs

/-- The trace of a search is the query-mode embedding call, optionally
    followed by one similarity-search call. -/
lemma search_trace_shape (C : Clients α μ σ) (project : Project)
    (text : String) (limit : Nat) :
    (search_vector_db_collection C project text limit).2 =
        [Event.embed_text text DocumentType.query] ∨
      ∃ v, (search_vector_db_collection C project text limit).2 =
        [Event.embed_text text DocumentType.query,
         Event.search_by_vector (create_collection_name project.project_id) v limit] := by
  unfold search_vector_db_collection
  cases hv : C.embed_text text DocumentType.query with
  | none => exact Or.inl rfl
  | some v =>
    by_cases hl : v.length = 0
    · simp [hl]
    · simp only [hl, if_false]
      cases hr : C.search_by_vector (create_collection_name project.project_id) v limit with
      | none => exact Or.inr ⟨v, rfl⟩
      | some rs =>
        by_cases hrs : rs.length = 0
        · simp [hrs]
        · simp [hrs]

/-- When retrieval is falsy (False or an empty list), answer_rag_question
    returns the all-None triple and its trace is exactly the retrieval
    trace. -/
lemma answer_early_exit (C : Clients α μ σ) (project : Project)
    (query : String) (limit : Nat)
    (h : (search_vector_db_collection C project query limit).1 = none ∨
         (search_vector_db_collection C project query limit).1 = some []) :
    answer_rag_question C project query limit =
      ((none, none, none), (search_vector_db_collection C project query limit).2) := by
  rcases h with h | h <;> simp [answer_rag_question, h]

/-- When retrieval yields a non-empty document list, answer_rag_question
    returns the generated answer together with the full prompt and chat
    history it passed to the generation backend, and its trace records
    that generation call last. -/
lemma answer_nonempty_eq (C : Clients α μ σ) (project : Project)
    (query : String) (limit : Nat) (docs : List (RetrievedDocument σ))
    (h : (search_vector_db_collection C project query limit).1 = some docs)
    (hne : docs ≠ []) :
    answer_rag_question C project query limit =
      ((C.generate_text (assembledPromptAmended C.template_get docs query) (chatHistoryOf C),
        some (assembledPromptAmended C.template_get docs query),
        some (chatHistoryOf C)),
       (search_vector_db_collection C project query limit).2 ++
         [Event.template_get "rag" "system_prompt" TemplateVars.noVars] ++
         (docs.enum.map (fun p =>
           Event.template_get "rag" "document_prompt" (TemplateVars.docVars (p.1 + 1) p.2.text))) ++
         [Event.template_get "rag" "footer_prompt" (TemplateVars.queryVars query),
          Event.construct_prompt (C.template_get "rag" "system_prompt" TemplateVars.noVars) C.system_enum,
          Event.generate_text (assembledPromptAmended C.template_get docs query) (chatHistoryOf C)]) := by
  have hlen : docs.length ≠ 0 := fun h0 => hne (List.length_eq_zero.mp h0)
  simp [answer_rag_question, h, hlen, assembledPromptAmended, documentFragments,
    footerFragment, chatHistoryOf]

end Helpers

/-- A concrete template provider used for concrete runs: injective on
    fragment kind, document number and carried text. -/
def okTemplates : String → String → TemplateVars → String := fun _ key vars =>
  match vars with
  | TemplateVars.noVars => "SYS:" ++ key
  | TemplateVars.docVars n t => "D" ++ Nat.repr n ++ ":" ++ t
  | TemplateVars.queryVars q => "F:" ++ q

/-- Concrete collaborators on which every call succeeds: embedding
    returns a one-element vector, search returns two ranked documents,
    generation echoes its prompt. -/
def okClients : Clients Int Unit Int where
  embed_text := fun _ _ => some [1]
  embedding_size := 1
  search_by_vector := fun _ _ _ => some [⟨"t1", 3⟩, ⟨"t2", 2⟩]
  template_get := okTemplates
  construct_prompt := fun p r => ⟨p, r⟩
  system_enum := "system"
  generate_text := fun p _ => some ("ans:" ++ p)

/-- Concrete collaborators whose embedding call always returns an absent
    vector. -/
def noEmbedClients : Clients Int Unit Int :=
  { okClients with embed_text := fun _ _ => none }

/-- A concrete project. -/
def P1 : Project := ⟨"p1"⟩

/-- A concrete chunk. -/
def chunkA : DataChunk Unit := ⟨"hello", (), 1⟩

/-- The two documents okClients retrieves. -/
def docsTwo : List (RetrievedDocument Int) := [⟨"t1", 3⟩, ⟨"t2", 2⟩]

open NLPController

/-- C9: index_into_vector_db always returns True when it returns
    normally: no input makes it signal failure through its return
    value. -/
theorem claim_C9_index_returns_true {α μ σ : Type} (C : Clients α μ σ)
    (project : Project) (chunks : List (DataChunk μ)) (chunks_ids : List Int)
    (do_reset : Bool) :
    (index_into_vector_db C project chunks chunks_ids do_reset).1 = true := rfl

/-- C10: search_vector_db_collection never returns an empty list: its
    result is either False (modelled none) or a non-empty list. -/
theorem claim_C10_search_never_empty {α μ σ : Type} (C : Clients α μ σ)
    (project : Project) (text : String) (limit : Nat) :
    (search_vector_db_collection C project text limit).1 = none ∨
      ∃ rs, (search_vector_db_collection C project text limit).1 = some rs ∧ rs ≠ [] :=
  search_result_shape C project text limit

/-- C7: when embedding the query yields an absent or empty vector,
    search_vector_db_collection signals no result immediately, its trace
    is just the embedding call, and no similarity search is issued. -/
theorem claim_C7_degenerate_query_vector {α μ σ : Type} (C : Clients α μ σ)
    (project : Project) (text : String) (limit : Nat)
    (h : C.embed_text text DocumentType.query = none ∨
         C.embed_text text DocumentType.query = some []) :
    (search_vector_db_collection C project text limit).1 = none ∧
    (search_vector_db_collection C project text limit).2 =
      [Event.embed_text text DocumentType.query] ∧
    ∀ e ∈ (search_vector_db_collection C project text limit).2,
      e.isSearchCall = false := by
  rcases h with h | h <;>
    refine ⟨?_, ?_, ?_⟩ <;>
      simp [search_vector_db_collection, h, Event.isSearchCall]

/-- Witness for C7 at a concrete failing embedding client. -/
theorem claim_C7_witness :
    (search_vector_db_collection noEmbedClients P1 "q" 10).1 = none ∧
    (search_vector_db_collection noEmbedClients P1 "q" 10).2 =
      [Event.embed_text "q" DocumentType.query] ∧
    ∀ e ∈ (search_vector_db_collection noEmbedClients P1 "q" 10).2,
      e.isSearchCall = false :=
  claim_C7_degenerate_query_vector noEmbedClients P1 "q" 10 (Or.inl rfl)

/-- C6: when retrieval is falsy, answer_rag_question returns the
    all-None triple and never calls the template parser or the
    generation backend. -/
theorem claim_C6_early_exit {α μ σ : Type} (C : Clients α μ σ)
    (project : Project) (query : String) (limit : Nat)
    (h : (search_vector_db_collection C project query limit).1 = none ∨
         (search_vector_db_collection C project query limit).1 = some []) :
    (answer_rag_question C project query limit).1 = (none, none, none) ∧
    ∀ e ∈ (answer_rag_question C project query limit).2,
      e.isTemplateGet = false ∧ e.isGenerationCall = false := by
  have he := answer_early_exit C project query limit h
  refine ⟨by rw [he], ?_⟩
  intro e hmem
  rw [he] at hmem
  simp only at hmem
  rcases search_trace_shape C project query limit with ht | ⟨v, ht⟩ <;>
    rw [ht] at hmem <;> simp at hmem
  · subst hmem
    exact ⟨rfl, rfl⟩
  · rcases hmem with hmem | hmem <;> subst hmem <;> exact ⟨rfl, rfl⟩

/-- Witness for C6 at a concrete failing embedding client. -/
theorem claim_C6_witness :
    (answer_rag_question noEmbedClients P1 "q" 10).1 = (none, none, none) ∧
    ∀ e ∈ (answer_rag_question noEmbedClients P1 "q" 10).2,
      e.isTemplateGet = false ∧ e.isGenerationCall = false :=
  claim_C6_early_exit noEmbedClients P1 "q" 10 (Or.inl rfl)

/-- C3: every embedding call issued while indexing uses the document
    mode and covers every chunk text, and every embedding call issued
    while searching uses the query mode and covers the query text: the
    two modes are never swapped. -/
theorem claim_C3_embedding_modes {α μ σ : Type} (C : Clients α μ σ)
    (project : Project) (chunks : List (DataChunk μ)) (chunks_ids : List Int)
    (do_reset : Bool) (text : String) (limit : Nat) :
    (∀ t m, Event.embed_text t m ∈ (index_into_vector_db C project chunks chunks_ids do_reset).2 →
      m = DocumentType.document) ∧
    (∀ c ∈ chunks, Event.embed_text c.chunk_text DocumentType.document ∈
      (index_into_vector_db C project chunks chunks_ids do_reset).2) ∧
    (∀ t m, Event.embed_text t m ∈ (search_vector_db_collection C project text limit).2 →
      m = DocumentType.query) ∧
    Event.embed_text text DocumentType.query ∈
      (search_vector_db_collection C project text limit).2 := by
  refine ⟨?_, ?_, ?_, ?_⟩
  · intro t m hm
    simp [index_into_vector_db] at hm
    obtain ⟨c, hc, ht, hmode⟩ := hm
    exact hmode.symm
  · intro c hc
    simp [index_into_vector_db]
    exact ⟨c, hc, rfl⟩
  · intro t m hm
    rcases search_trace_shape C project text limit with ht | ⟨v, ht⟩ <;>
      rw [ht] at hm <;> simp at hm
    · exact hm.2
    · exact hm.2
  · rcases search_trace_shape C project text limit with ht | ⟨v, ht⟩ <;>
      rw [ht] <;> simp

/-- Witness for C3: a chunk indexed at a concrete client embeds in
    document mode and a concrete query embeds in query mode. -/
theorem claim_C3_witness :
    Event.embed_text "hello" DocumentType.document ∈
      (index_into_vector_db okClients P1 [chunkA] [1] false).2 ∧
    Event.embed_text "q" DocumentType.query ∈
      (search_vector_db_collection okClients P1 "q" 10).2 :=
  ⟨(claim_C3_embedding_modes okClients P1 [chunkA] [1] false "q" 10).2.1 chunkA
      (by simp),
   (claim_C3_embedding_modes okClients P1 [chunkA] [1] false "q" 10).2.2.2⟩

/-- C1: answer_rag_question returns the all-None triple exactly when
    retrieval was falsy; when retrieval yields a non-empty list the
    triple holds the generated answer together with the very prompt and
    chat history passed to the generation backend. -/
theorem claim_C1_none_iff {α μ σ : Type} (C : Clients α μ σ)
    (project : Project) (query : String) (limit : Nat) :
    ((answer_rag_question C project query limit).1 = (none, none, none) ↔
      ((search_vector_db_collection C project query limit).1 = none ∨
       (search_vector_db_collection C project query limit).1 = some [])) ∧
    (∀ docs, (search_vector_db_collection C project query limit).1 = some docs →
      docs ≠ [] →
      (answer_rag_question C project query limit).1 =
        (C.generate_text (assembledPromptAmended C.template_get docs query) (chatHistoryOf C),
         some (assembledPromptAmended C.template_get docs query),
         some (chatHistoryOf C)) ∧
      Event.generate_text (assembledPromptAmended C.template_get docs query) (chatHistoryOf C) ∈
        (answer_rag_question C project query limit).2) := by
  constructor
  · constructor
    · intro h
      by_contra hn
      push_neg at hn
      rcases search_result_shape C project query limit with hs | ⟨rs, hs, hne⟩
      · exact hn.1 hs
      · rw [answer_nonempty_eq C project query limit rs hs hne] at h
        simp at h
    · intro h
      rw [answer_early_exit C project query limit h]
  · intro docs hd hne
    have he := answer_nonempty_eq C project query limit docs hd hne
    refine ⟨by rw [he], ?_⟩
    rw [he]
    simp

/-- Witness for C1 at a concrete client whose retrieval yields two
    documents. -/
theorem claim_C1_witness :
    (answer_rag_question okClients P1 "q" 10).1 =
      (okClients.generate_text (assembledPromptAmended okClients.template_get docsTwo "q")
        (chatHistoryOf okClients),
       some (assembledPromptAmended okClients.template_get docsTwo "q"),
       some (chatHistoryOf okClients)) ∧
    Event.generate_text (assembledPromptAmended okClients.template_get docsTwo "q")
        (chatHistoryOf okClients) ∈
      (answer_rag_question okClients P1 "q" 10).2 :=
  (claim_C1_none_iff okClients P1 "q" 10).2 docsTwo rfl (by decide)

/-- C5 counterexample: at a concrete client retrieving two documents,
    the assembled full prompt is NOT all fragments joined by blank
    lines: the two document fragments are separated by a single
    newline. -/
theorem claim_C5_counterexample :
    (search_vector_db_collection okClients P1 "q" 10).1 = some docsTwo ∧
    (answer_rag_question okClients P1 "q" 10).1.2.1 ≠
      some (assembledPromptClaim okClients.template_get docsTwo "q") := by
  refine ⟨rfl, ?_⟩
  decide

/-- C5 amended: the full prompt is the 1-based numbered document
    fragments in retrieval order joined by single newlines, followed by
    the single footer fragment carrying the literal query text,
    separated from the documents block by one blank line. -/
theorem claim_C5_amended_prompt {α μ σ : Type} (C : Clients α μ σ)
    (project : Project) (query : String) (limit : Nat)
    (docs : List (RetrievedDocument σ))
    (h : (search_vector_db_collection C project query limit).1 = some docs)
    (hne : docs ≠ []) :
    (answer_rag_question C project query limit).1.2.1 =
      some (assembledPromptAmended C.template_get docs query) := by
  rw [answer_nonempty_eq C project query limit docs h hne]

/-- Witness for the amended C5 at a concrete client. -/
theorem claim_C5_witness :
    (answer_rag_question okClients P1 "q" 10).1.2.1 =
      some (assembledPromptAmended okClients.template_get docsTwo "q") :=
  claim_C5_amended_prompt okClients P1 "q" 10 docsTwo rfl (by decide)

/-- C2 counterexample: with an embedding client returning an absent
    vector for the single chunk of a batch, index_into_vector_db still
    issues the vector store write: the batch is not aborted. -/
theorem claim_C2_counterexample :
    noEmbedClients.embed_text chunkA.chunk_text DocumentType.document = none ∧
    writeIssued (index_into_vector_db noEmbedClients P1 [chunkA] [1] false).2 = true :=
  ⟨rfl, rfl⟩

/-- C2 amended: all chunk embeddings are computed before the single
    upsert is issued, but an empty or absent embedding does not abort
    the batch: the upsert is always issued and carries one vector entry
    per chunk, failed embeddings included. -/
theorem claim_C2_amended_no_abort {α μ σ : Type} (C : Clients α μ σ)
    (project : Project) (chunks : List (DataChunk μ)) (chunks_ids : List Int)
    (do_reset : Bool) :
    ∃ tr0,
      (index_into_vector_db C project chunks chunks_ids do_reset).2 =
        tr0 ++
          [Event.create_collection (create_collection_name project.project_id)
             C.embedding_size do_reset,
           Event.insert_many (create_collection_name project.project_id)
             (chunks.map (fun c => c.chunk_text))
             (chunks.map (fun c => c.chunk_metadata))
             (chunks.map (fun c => C.embed_text c.chunk_text DocumentType.document))
             chunks_ids] ∧
      (∀ e ∈ tr0, ∃ t, e = Event.embed_text t DocumentType.document) ∧
      tr0.length = chunks.length ∧
      writeIssued (index_into_vector_db C project chunks chunks_ids do_reset).2 = true := by
  refine ⟨(chunks.map (fun c => c.chunk_text)).map
      (fun t => Event.embed_text t DocumentType.document), ?_, ?_, by simp, ?_⟩
  · simp [index_into_vector_db, List.map_map]
  · intro e he
    simp at he
    obtain ⟨c, _, rfl⟩ := he
    exact ⟨c.chunk_text, rfl⟩
  · simp [writeIssued, index_into_vector_db, Event.isInsert]

section StoreLemmas

open VectorStore

variable {α μ σ : Type}

lemma applyTrace_append (S : VStore α μ) (t1 t2 : List (Event α μ)) :
    applyTrace S (t1 ++ t2) = applyTrace (applyTrace S t1) t2 := by
  simp [applyTrace, List.foldl_append]

lemma applyTrace_embeds (S : VStore α μ) (ts : List String) (dt : DocumentType) :
    applyTrace S (ts.map (fun t => Event.embed_text t dt)) = S := by
  induction ts generalizing S with
  | nil => rfl
  | cons t ts ih => exact ih S

lemma upsertRows_not_mem :
    ∀ (rows : List (Int × VRecord α μ)) (coll : VCollection α μ) (id : Int),
      id ∉ rows.map Prod.fst → upsertRows coll rows id = coll id := by
  intro rows
  induction rows with
  | nil => intro coll id _; rfl
  | cons r rs ih =>
    intro coll id h
    simp only [List.map_cons, List.mem_cons, not_or] at h
    have hstep : upsertRows coll (r :: rs) = upsertRows (upsertOne coll r) rs := rfl
    rw [hstep, ih _ id h.2]
    simp [upsertOne, h.1]

lemma upsertRows_mem_nodup :
    ∀ (rows : List (Int × VRecord α μ)) (coll : VCollection α μ) (id : Int)
      (r : VRecord α μ),
      (rows.map Prod.fst).Nodup → (id, r) ∈ rows →
      upsertRows coll rows id = some r := by
  intro rows
  induction rows with
  | nil => intro _ _ _ hnd hm; cases hm
  | cons p ps ih =>
    intro coll id r hnd hm
    obtain ⟨pi, pr⟩ := p
    simp only [List.map_cons, List.nodup_cons] at hnd
    have hstep : upsertRows coll ((pi, pr) :: ps) = upsertRows (upsertOne coll (pi, pr)) ps := rfl
    rw [hstep]
    rcases List.mem_cons.mp hm with heq | hmem
    · injection heq with h1 h2
      subst h1
      subst h2
      rw [upsertRows_not_mem ps _ id hnd.1]
      simp [upsertOne]
    · exact ih _ id r hnd.2 hmem

lemma mkRows_zipWith (f : DataChunk μ → String) (g : DataChunk μ → μ)
    (v : DataChunk μ → Option (List α)) :
    ∀ (chunks : List (DataChunk μ)) (ids : List Int),
      mkRows (chunks.map f) (chunks.map g) (chunks.map v) ids =
        List.zipWith (fun c i => (i, VRecord.mk (f c) (g c) (v c))) chunks ids := by
  intro chunks
  induction chunks with
  | nil => intro ids; rfl
  | cons c cs ih =>
    intro ids
    cases ids with
    | nil => rfl
    | cons i is =>
      simp only [List.map_cons, mkRows, List.zipWith]
      rw [ih is]

lemma zipWith_pair_keys {γ δ : Type} (F : γ → δ) :
    ∀ (cs : List γ) (is : List Int), cs.length = is.length →
      (List.zipWith (fun c j => (j, F c)) cs is).map Prod.fst = is := by
  intro cs
  induction cs with
  | nil =>
    intro is h
    cases is with
    | nil => rfl
    | cons i is => simp at h
  | cons c cs ih =>
    intro is h
    cases is with
    | nil => simp at h
    | cons i is =>
      simp only [List.zipWith, List.map_cons]
      rw [ih is (by simpa using h)]

lemma mem_zipWith_pair {γ δ : Type} (F : γ → δ) :
    ∀ (cs : List γ) (is : List Int) (i : Nat) (c : γ) (id : Int),
      cs.get? i = some c → is.get? i = some id →
      (id, F c) ∈ List.zipWith (fun c j => (j, F c)) cs is := by
  intro cs
  induction cs with
  | nil => intro is i c id hc _; simp at hc
  | cons x xs ih =>
    intro is i c id hc hid
    cases is with
    | nil => simp at hid
    | cons y ys =>
      cases i with
      | zero =>
        have hc2 : some x = some c := hc
        have hid2 : some y = some id := hid
        injection hc2 with hc3
        injection hid2 with hid3
        subst hc3
        subst hid3
        exact List.mem_cons_self _ _
      | succ n =>
        have hc2 : xs.get? n = some c := hc
        have hid2 : ys.get? n = some id := hid
        exact List.mem_cons_of_mem _ (ih ys n c id hc2 hid2)

end StoreLemmas

/-- C4: indexing with do_reset=True against any prior vector store
    state leaves the project collection holding exactly the records of
    the new batch keyed by the given chunk ids (the i-th id maps to the
    i-th chunk text, metadata and document-mode embedding), with every
    other id absent, under the spec-modelled store semantics. -/
theorem claim_C4_reset_exact {α μ σ : Type} (C : Clients α μ σ) (project : Project)
    (chunks : List (DataChunk μ)) (chunks_ids : List Int)
    (hlen : chunks.length = chunks_ids.length) (hnodup : chunks_ids.Nodup)
    (S : VectorStore.VStore α μ) :
    ∃ coll,
      VectorStore.applyTrace S (index_into_vector_db C project chunks chunks_ids true).2
          (create_collection_name project.project_id) = some coll ∧
      (∀ id, id ∉ chunks_ids → coll id = none) ∧
      (∀ i id c, chunks_ids.get? i = some id → chunks.get? i = some c →
        coll id = some ⟨c.chunk_text, c.chunk_metadata,
          C.embed_text c.chunk_text DocumentType.document⟩) := by
  classical
  set name := create_collection_name project.project_id with hname
  set texts := chunks.map (fun c => c.chunk_text) with htexts
  set metas := chunks.map (fun c => c.chunk_metadata) with hmetas
  set vectors := texts.map (fun t => C.embed_text t DocumentType.document) with hvectors
  have hrows :
      VectorStore.mkRows (α := α) (μ := μ) texts metas vectors chunks_ids =
        List.zipWith (fun c i =>
          (i, VectorStore.VRecord.mk c.chunk_text c.chunk_metadata
                (C.embed_text c.chunk_text DocumentType.document))) chunks chunks_ids := by
    rw [hvectors, htexts, hmetas, List.map_map]
    exact mkRows_zipWith _ _ _ chunks chunks_ids
  have hkeys :
      (List.zipWith (fun c i =>
        (i, VectorStore.VRecord.mk c.chunk_text c.chunk_metadata
              (C.embed_text c.chunk_text DocumentType.document))) chunks chunks_ids).map
          Prod.fst = chunks_ids :=
    zipWith_pair_keys _ chunks chunks_ids hlen
  refine ⟨VectorStore.upsertRows VectorStore.emptyColl
      (VectorStore.mkRows texts metas vectors chunks_ids), ?_, ?_, ?_⟩
  · have htr : (index_into_vector_db C project chunks chunks_ids true).2 =
        (texts.map (fun t => Event.embed_text t DocumentType.document)) ++
          [Event.create_collection name C.embedding_size true,
           Event.insert_many name texts metas vectors chunks_ids] := rfl
    rw [htr, applyTrace_append, applyTrace_embeds]
    show VectorStore.applyEvent
        (VectorStore.applyEvent S (Event.create_collection name C.embedding_size true))
        (Event.insert_many name texts metas vectors chunks_ids) name = _
    simp [VectorStore.applyEvent, VectorStore.setColl]
  · intro id hid
    rw [hrows, upsertRows_not_mem _ _ id (by rw [hkeys]; exact hid)]
    rfl
  · intro i id c hid hc
    rw [hrows, upsertRows_mem_nodup _ _ id _ (by rw [hkeys]; exact hnodup)
      (mem_zipWith_pair _ chunks chunks_ids i c id hc hid)]

/-- A second concrete chunk. -/
def chunkB : DataChunk Unit := ⟨"world", (), 2⟩

/-- The empty vector store state. -/
def S0 : VectorStore.VStore Int Unit := fun _ => none

section ChunkLemmas

open ProcessController

lemma splitText_flatten_drop (chunk_size overlap_size : Nat)
    (hov : overlap_size < chunk_size) :
    ∀ (n : Nat) (cs : List Char), cs.length ≤ n →
      ((splitText chunk_size overlap_size cs).map (List.drop overlap_size)).flatten =
        cs.drop overlap_size := by
  intro n
  induction n with
  | zero =>
    intro cs hlen
    have hcs : cs = [] := List.length_eq_zero.mp (Nat.le_zero.mp hlen)
    subst hcs
    rw [splitText]
    simp
  | succ n ih =>
    intro cs hlen
    rw [splitText]
    by_cases h0 : cs.length = 0
    · have hcs : cs = [] := List.length_eq_zero.mp h0
      subst hcs
      simp
    · rw [if_neg h0]
      by_cases hshort : cs.length ≤ chunk_size ∨ chunk_size ≤ overlap_size
      · rw [if_pos hshort]
        simp
      · rw [if_neg hshort]
        push_neg at hshort
        simp only [List.map_cons, List.flatten_cons]
        rw [ih (cs.drop (chunk_size - overlap_size))
          (by simp only [List.length_drop]; omega)]
        rw [List.drop_take, List.drop_drop,
          show chunk_size - overlap_size + overlap_size = chunk_size from by omega,
          show cs.drop chunk_size =
            (cs.drop overlap_size).drop (chunk_size - overlap_size) from by
              rw [List.drop_drop]; congr 1; omega]
        exact List.take_append_drop _ _

lemma joinWithoutOverlap_splitText (chunk_size overlap_size : Nat)
    (hov : overlap_size < chunk_size) (cs : List Char) :
    joinWithoutOverlap overlap_size (splitText chunk_size overlap_size cs) = cs := by
  rw [splitText]
  by_cases h0 : cs.length = 0
  · have hcs : cs = [] := List.length_eq_zero.mp h0
    subst hcs
    simp [joinWithoutOverlap]
  · rw [if_neg h0]
    by_cases hshort : cs.length ≤ chunk_size ∨ chunk_size ≤ overlap_size
    · rw [if_pos hshort]
      simp [joinWithoutOverlap]
    · rw [if_neg hshort]
      push_neg at hshort
      simp only [joinWithoutOverlap]
      rw [splitText_flatten_drop chunk_size overlap_size hov
        (cs.drop (chunk_size - overlap_size)).length (cs.drop (chunk_size - overlap_size)) le_rfl]
      rw [List.drop_drop,
        show chunk_size - overlap_size + overlap_size = chunk_size from by omega]
      exact List.take_append_drop _ _

lemma splitText_ne_nil (chunk_size overlap_size : Nat)
    (hov : overlap_size < chunk_size) :
    ∀ (n : Nat) (cs : List Char), cs.length ≤ n →
      ∀ c ∈ splitText chunk_size overlap_size cs, c ≠ [] := by
  intro n
  induction n with
  | zero =>
    intro cs hlen c hc
    have hcs : cs = [] := List.length_eq_zero.mp (Nat.le_zero.mp hlen)
    subst hcs
    rw [splitText] at hc
    simp at hc
  | succ n ih =>
    intro cs hlen c hc
    rw [splitText] at hc
    by_cases h0 : cs.length = 0
    · simp [h0] at hc
    · rw [if_neg h0] at hc
      by_cases hshort : cs.length ≤ chunk_size ∨ chunk_size ≤ overlap_size
      · rw [if_pos hshort] at hc
        simp at hc
        subst hc
        exact fun he => h0 (by simp [he])
      · rw [if_neg hshort] at hc
        push_neg at hshort
        rcases List.mem_cons.mp hc with rfl | hmem
        · intro he
          have hl := congrArg List.length he
          simp only [List.length_take, List.length_nil] at hl
          omega
        · exact ih (cs.drop (chunk_size - overlap_size))
            (by simp only [List.length_drop]; omega) c hmem

end ChunkLemmas

/-- C8: for overlap_size < chunk_size, splitting one document and
    concatenating the chunks with the leading overlap of every later
    chunk removed reconstructs the document text exactly; every output
    chunk carries the source metadata unmodified and no chunk is empty
    (spec-modelled splitter: the library splitter is not in src). -/
theorem claim_C8_chunk_reconstruction {μ : Type} (chunk_size overlap_size : Nat)
    (hov : overlap_size < chunk_size) (D : List Char) (m : μ) (file_id : String) :
    ProcessController.joinWithoutOverlap overlap_size
        ((ProcessController.process_file_content [⟨D, m⟩] file_id chunk_size overlap_size).map
          (fun d => d.page_content)) = D ∧
    ∀ c ∈ ProcessController.process_file_content [⟨D, m⟩] file_id chunk_size overlap_size,
      c.metadata = m ∧ c.page_content ≠ [] := by
  have hout : ProcessController.process_file_content [⟨D, m⟩] file_id chunk_size overlap_size =
      (ProcessController.splitText chunk_size overlap_size D).map
        (fun c => ⟨c, m⟩) := by
    simp [ProcessController.process_file_content, ProcessController.create_documents]
  constructor
  · rw [hout, List.map_map]
    have hid : ((fun d : ProcessController.Document μ => d.page_content) ∘
        (fun c => (⟨c, m⟩ : ProcessController.Document μ))) = id := rfl
    rw [hid, List.map_id]
    exact joinWithoutOverlap_splitText chunk_size overlap_size hov D
  · intro c hc
    rw [hout] at hc
    simp at hc
    obtain ⟨t, ht, rfl⟩ := hc
    exact ⟨rfl, splitText_ne_nil chunk_size overlap_size hov D.length D le_rfl t ht⟩

/-- Witness for C8: an eight-character document split with chunk size 5
    and overlap 2. -/
theorem claim_C8_witness :
    ProcessController.joinWithoutOverlap 2
        ((ProcessController.process_file_content
            [⟨("abcdefgh".data : List Char), (37 : Nat)⟩] "f.txt" 5 2).map
          (fun d => d.page_content)) = "abcdefgh".data ∧
    ∀ c ∈ ProcessController.process_file_content
        [⟨("abcdefgh".data : List Char), (37 : Nat)⟩] "f.txt" 5 2,
      c.metadata = 37 ∧ c.page_content ≠ [] :=
  claim_C8_chunk_reconstruction 5 2 (by decide) "abcdefgh".data 37 "f.txt"

/-- Witness for C4: resetting and indexing two concrete chunks from the
    empty store state. -/
theorem claim_C4_witness :
    ∃ coll,
      VectorStore.applyTrace S0 (index_into_vector_db okClients P1 [chunkA, chunkB] [5, 9] true).2
          (create_collection_name P1.project_id) = some coll ∧
      (∀ id, id ∉ ([5, 9] : List Int) → coll id = none) ∧
      (∀ i id c, ([5, 9] : List Int).get? i = some id →
        ([chunkA, chunkB].get? i) = some c →
        coll id = some ⟨c.chunk_text, c.chunk_metadata,
          okClients.embed_text c.chunk_text DocumentType.document⟩) :=
  claim_C4_reset_exact okClients P1 [chunkA, chunkB] [5, 9] rfl (by decide) S0
